import Mathlib

/-!
Shallow embedding of `debug_gguf.py`: a defensive binary deserializer for the
header and key/value metadata section of a GGUF-style model container file.

The Python script reads strictly sequentially from an open file, so the byte
cursor is modelled as the list of bytes not yet consumed (`Bytes`).  Every
`f.read(n)` becomes `take n` / `drop n`; every `struct.unpack` of a fixed
width becomes a read that fails (raises, in Python) when fewer bytes remain.
The printed report is modelled as a list of structured `Line`s, one per
printed physical line, carrying exactly the data interpolated into the text.
-/

namespace DebugGguf

/-- A byte stream: the suffix of the file not yet consumed.  Bytes are 0..255
in any stream that comes from a file. -/
abbrev Bytes := List Nat

/-- Little-endian value of a byte list, as `struct.unpack` computes it. -/
def leVal : Bytes → Nat
  | [] => 0
  | b :: bs => b + 256 * leVal bs

/-- Little-endian encoding of `x` on `n` bytes (used to build test inputs). -/
def encLE : Nat → Nat → Bytes
  | 0, _ => []
  | n + 1, x => x % 256 :: encLE n (x / 256)

def encU32 (x : Nat) : Bytes := encLE 4 x

def encU64 (x : Nat) : Bytes := encLE 8 x

/-- Models struct.unpack of a 4-byte little-endian unsigned: fails (Python
raises struct.error) when fewer than 4 bytes remain, since the read then
returns a short buffer. -/
def unpackU32 (s : Bytes) : Option (Nat × Bytes) :=
  if 4 ≤ s.length then some (leVal (s.take 4), s.drop 4) else none

/-- Models struct.unpack of an 8-byte little-endian unsigned: fails when
fewer than 8 bytes remain. -/
def unpackU64 (s : Bytes) : Option (Nat × Bytes) :=
  if 8 ≤ s.length then some (leVal (s.take 8), s.drop 8) else none

/-! ## UTF-8 decoding, as bytes.decode does in Python -/

/-- Decode one UTF-8 code point from the front of a byte list: returns the
code point and the remaining bytes, or `none` on a malformed prefix.
Overlong encodings, surrogates and values above U+10FFFF are rejected,
as the strict decoder of Python does. -/
def utf8DecodeOne : Bytes → Option (Nat × Bytes)
  | [] => none
  | b :: r =>
    if b < 0x80 then some (b, r)
    else if b < 0xC2 then none
    else if b < 0xE0 then
      match r with
      | b1 :: r1 =>
        if 0x80 ≤ b1 ∧ b1 < 0xC0 then some ((b - 0xC0) * 64 + (b1 - 0x80), r1) else none
      | [] => none
    else if b < 0xF0 then
      match r with
      | b1 :: b2 :: r2 =>
        if (if b = 0xE0 then 0xA0 ≤ b1 ∧ b1 < 0xC0
            else if b = 0xED then 0x80 ≤ b1 ∧ b1 < 0xA0
            else 0x80 ≤ b1 ∧ b1 < 0xC0) ∧ 0x80 ≤ b2 ∧ b2 < 0xC0
        then some ((b - 0xE0) * 4096 + (b1 - 0x80) * 64 + (b2 - 0x80), r2) else none
      | _ => none
    else if b < 0xF5 then
      match r with
      | b1 :: b2 :: b3 :: r3 =>
        if (if b = 0xF0 then 0x90 ≤ b1 ∧ b1 < 0xC0
            else if b = 0xF4 then 0x80 ≤ b1 ∧ b1 < 0x90
            else 0x80 ≤ b1 ∧ b1 < 0xC0) ∧ 0x80 ≤ b2 ∧ b2 < 0xC0 ∧ 0x80 ≤ b3 ∧ b3 < 0xC0
        then some ((b - 0xF0) * 262144 + (b1 - 0x80) * 4096 + (b2 - 0x80) * 64 + (b3 - 0x80), r3)
        else none
      | _ => none
    else none

/-- Strict UTF-8 decode, fuelled by the input length (each step consumes at
least one byte, so `s.length` fuel always suffices). -/
def utf8DecodeAux : Nat → Bytes → Option (List Nat)
  | _, [] => some []
  | 0, _ :: _ => none
  | fuel + 1, b :: r =>
    match utf8DecodeOne (b :: r) with
    | none => none
    | some (c, rest) =>
      match utf8DecodeAux fuel rest with
      | none => none
      | some cs => some (c :: cs)

/-- Models the strict decode call: the list of code points, or `none` on
malformed input (Python raises UnicodeDecodeError). -/
def utf8Decode (s : Bytes) : Option (List Nat) := utf8DecodeAux s.length s

/-- Length of the maximal subpart of an ill-formed sequence at the front of
`s` (at least 1): how many bytes one U+FFFD replacement stands for. -/
def invalidLen (s : Bytes) : Nat :=
  match s with
  | [] => 1
  | b :: r =>
    if b < 0xE0 then 1
    else if b < 0xF0 then
      match r with
      | b1 :: _ =>
        if (if b = 0xE0 then 0xA0 ≤ b1 ∧ b1 < 0xC0
            else if b = 0xED then 0x80 ≤ b1 ∧ b1 < 0xA0
            else 0x80 ≤ b1 ∧ b1 < 0xC0)
        then 2 else 1
      | [] => 1
    else if b < 0xF5 then
      match r with
      | b1 :: r1 =>
        if (if b = 0xF0 then 0x90 ≤ b1 ∧ b1 < 0xC0
            else if b = 0xF4 then 0x80 ≤ b1 ∧ b1 < 0x90
            else 0x80 ≤ b1 ∧ b1 < 0xC0)
        then
          match r1 with
          | b2 :: _ => if 0x80 ≤ b2 ∧ b2 < 0xC0 then 3 else 2
          | [] => 2
        else 1
      | [] => 1
    else 1

/-- Models the lossy decode call with errors=replace: each maximal ill-formed
subpart becomes one U+FFFD (0xFFFD). -/
def utf8ReplaceAux : Nat → Bytes → List Nat
  | _, [] => []
  | 0, _ :: _ => []
  | fuel + 1, b :: r =>
    match utf8DecodeOne (b :: r) with
    | some (c, rest) => c :: utf8ReplaceAux fuel rest
    | none => 0xFFFD :: utf8ReplaceAux fuel ((b :: r).drop (invalidLen (b :: r)))

def utf8Replace (s : Bytes) : List Nat := utf8ReplaceAux s.length s

/-- Models the try/except decode pattern of read_string (lines 11-14): strict
decode, falling back to the lossy decode on UnicodeDecodeError. -/
def decodeLossy (bs : Bytes) : List Nat :=
  match utf8Decode bs with
  | some cs => cs
  | none => utf8Replace bs

/-! ## The report -/

/-- Code points of the sentinel literal that read_string returns on an
oversized length, spelled <CORRUPTED> in the source (all ASCII). -/
def sentinelStr : List Nat := [60, 67, 79, 82, 82, 85, 80, 84, 69, 68, 62]

/-- Code points of the watched key literal tokenizer.ggml.pre (all ASCII). -/
def watchKey : List Nat :=
  [116, 111, 107, 101, 110, 105, 122, 101, 114, 46, 103, 103, 109, 108, 46, 112, 114, 101]

/-- One printed physical line of the report, carrying the interpolated data.
Here `entry` carries `found = true` when the FOUND marker is appended to
the entry line (the script prints it on the same line). -/
inductive Line where
  /-- Prints the magic and version banner line. -/
  | header1 (magic version : Nat)
  /-- Prints the tensor count and kv count banner line. -/
  | header2 (tensorCount kvCount : Nat)
  /-- Prints the blank line plus the Metadata keys heading. -/
  | metadataKeys
  /-- Prints: Warning, string length seems too large, file may be corrupted. -/
  | warnStringLength (len : Nat)
  /-- Prints: Corrupted key, stopping (with the 1-based entry index). -/
  | corruptedKey (idx : Nat)
  /-- Prints the standard entry line with index, key and type code, plus the
FOUND tokenizer.ggml.pre marker on the same line when `found` is true. -/
  | entry (idx : Nat) (key : List Nat) (ty : Nat) (found : Bool)
  /-- Prints: Warning, string value length too large, skipping. -/
  | warnValueLength (len : Nat)
  /-- Prints the decoded value of a watched STRING entry. -/
  | valueStr (s : List Nat)
  /-- Prints the hex form of a watched STRING value that fails to decode. -/
  | valueHex (bs : Bytes)
  /-- Prints the array element type and length of a watched ARRAY entry. -/
  | arrayInfo (ty len : Nat)
  /-- Prints: Warning, array length too large, stopping. -/
  | warnArrayLength (len : Nat)
  /-- Prints: Warning, string in array too large, stopping. -/
  | warnArrayString
  /-- Prints the caught-exception line with the 1-based entry index. -/
  | errorEntry (idx : Nat)
  deriving DecidableEq, Repr

/-- Lines that report an anomaly (warnings, corruption, caught errors), as
opposed to ordinary header/entry/value output. -/
def isNote : Line → Bool
  | .warnStringLength _ => true
  | .corruptedKey _ => true
  | .warnValueLength _ => true
  | .warnArrayLength _ => true
  | .warnArrayString => true
  | .errorEntry _ => true
  | _ => false

/-- The standard per-entry line. -/
def isEntryLine : Line → Bool
  | .entry _ _ _ _ => true
  | _ => false

def notes (ls : List Line) : List Line := ls.filter isNote

def countEntries (ls : List Line) : Nat := (ls.filter isEntryLine).length

/-! ## read_string (lines 5-14) -/

/-- Models read_string (lines 5-14): reads a 64-bit length; if it exceeds
10000, prints a warning and returns the sentinel text without reading the
payload; otherwise reads that many bytes and decodes them (lossily on
invalid UTF-8).  Here `none` models an uncaught struct.error on a short
read of the length field. -/
def read_string (s : Bytes) : Option (List Nat × List Line × Bytes) :=
  match unpackU64 s with
  | none => none
  | some (len, s1) =>
    if len > 10000 then some (sentinelStr, [.warnStringLength len], s1)
    else some (decodeLossy (s1.take len), [], s1.drop len)

/-! ## One iteration of the entry loop (lines 30-85) -/

/-- Result of one iteration of the entry loop: `cont` falls through to the
next iteration, `brk` is the break statement (terminate the loop), `abrt` is
the `return` on line 71 (abandon the whole routine).  Each carries the lines
printed during the iteration and the unconsumed stream. -/
inductive Step where
  | cont (ls : List Line) (rest : Bytes)
  | brk (ls : List Line) (rest : Bytes)
  | abrt (ls : List Line) (rest : Bytes)
  deriving DecidableEq, Repr

/-- Models the type_sizes dictionary (lines 75 and 80): byte width of each
known type code. -/
def type_sizes (c : Nat) : Option Nat :=
  if c = 0 then some 1 else if c = 1 then some 1 else if c = 2 then some 1
  else if c = 3 then some 2 else if c = 4 then some 2
  else if c = 5 then some 4 else if c = 6 then some 4 else if c = 7 then some 4
  else if c = 8 then some 8 else if c = 9 then some 8 else if c = 10 then some 8
  else none

/-- Result of the string-array element loop (lines 67-72). -/
inductive ArrSkip where
  /-- all elements consumed normally -/
  | done (rest : Bytes)
  /-- some element length exceeded 10000: warning printed, `return` -/
  | tooLarge (rest : Bytes)
  /-- models a struct.error on an element length (caught by the outer handler) -/
  | exn (rest : Bytes)
  deriving DecidableEq, Repr

/-- The loop `for j in range(array_len)` over string elements: reads a
64-bit length per element and skips that many bytes, aborting on the first
element whose declared length exceeds 10000. -/
def skipStringArray : Nat → Bytes → ArrSkip
  | 0, s => .done s
  | n + 1, s =>
    match unpackU64 s with
    | none => .exn (s.drop 8)
    | some (len, s1) =>
      if len > 10000 then .tooLarge s1
      else skipStringArray n (s1.drop len)

/-- One iteration of the entry loop, at loop index `i` (0-based; printed
indices are `i+1`), on stream `s`.  Mirrors lines 30-85 of the source,
including the `try/except` that converts short reads into an error line
plus `break`. -/
def processEntry (i : Nat) (s : Bytes) : Step :=
  match read_string s with
  | none => .brk [.errorEntry (i + 1)] (s.drop 8)
  | some (key, ls0, s1) =>
    if key = sentinelStr then .brk (ls0 ++ [.corruptedKey (i + 1)]) s1
    else
      match unpackU32 s1 with
      | none => .brk (ls0 ++ [.errorEntry (i + 1)]) (s1.drop 4)
      | some (ty, s2) =>
        let found := key = watchKey
        let eLine := Line.entry (i + 1) key ty found
        if ty = 8 then
          match unpackU64 s2 with
          | none => .brk (ls0 ++ [eLine, .errorEntry (i + 1)]) (s2.drop 8)
          | some (vlen, s3) =>
            if vlen > 10000 then .brk (ls0 ++ [eLine, .warnValueLength vlen]) s3
            else
              let value := s3.take vlen
              let s4 := s3.drop vlen
              if found then
                match utf8Decode value with
                | some cs => .cont (ls0 ++ [eLine, .valueStr cs]) s4
                | none => .cont (ls0 ++ [eLine, .valueHex value]) s4
              else .cont (ls0 ++ [eLine]) s4
        else if ty = 9 then
          match unpackU32 s2 with
          | none => .brk (ls0 ++ [eLine, .errorEntry (i + 1)]) (s2.drop 4)
          | some (aty, s3) =>
            match unpackU64 s3 with
            | none => .brk (ls0 ++ [eLine, .errorEntry (i + 1)]) (s3.drop 8)
            | some (alen, s4) =>
              let ls1 := if found then [Line.arrayInfo aty alen] else []
              if alen > 100000 then .brk (ls0 ++ [eLine] ++ ls1 ++ [.warnArrayLength alen]) s4
              else if aty = 8 then
                match skipStringArray alen s4 with
                | .done s5 => .cont (ls0 ++ [eLine] ++ ls1) s5
                | .tooLarge s5 => .abrt (ls0 ++ [eLine] ++ ls1 ++ [.warnArrayString]) s5
                | .exn s5 => .brk (ls0 ++ [eLine] ++ ls1 ++ [.errorEntry (i + 1)]) s5
              else
                match type_sizes aty with
                | some w => .cont (ls0 ++ [eLine] ++ ls1) (s4.drop (alen * w))
                | none => .cont (ls0 ++ [eLine] ++ ls1) s4
        else
          match type_sizes ty with
          | some w => .cont (ls0 ++ [eLine]) (s2.drop w)
          | none => .cont (ls0 ++ [eLine]) s2

/-- The entry loop `for i in range(min(kv_count, 50))`, run with the given
remaining iteration count and current loop index: collects the printed
lines.  `brk` and `abrt` both end the loop (nothing follows the loop in the
routine); they differ only in which Python construct ended it. -/
def runLoop : Nat → Nat → Bytes → List Line
  | 0, _, _ => []
  | n + 1, i, s =>
    match processEntry i s with
    | .cont ls s1 => ls ++ runLoop n (i + 1) s1
    | .brk ls _ => ls
    | .abrt ls _ => ls

/-! ## Header and top level (lines 16-29) -/

structure Header where
  magic : Nat
  version : Nat
  tensor_count : Nat
  kv_count : Nat
  deriving DecidableEq, Repr

/-- Lines 19-22: the four fixed-width header reads, outside any `try`, so a
short read (`struct.error`) is fatal for the parse. -/
def parseHeader (s : Bytes) : Option (Header × Bytes) :=
  match unpackU32 s with
  | none => none
  | some (magic, s1) =>
    match unpackU32 s1 with
    | none => none
    | some (version, s2) =>
      match unpackU64 s2 with
      | none => none
      | some (tc, s3) =>
        match unpackU64 s3 with
        | none => none
        | some (kv, s4) => some (⟨magic, version, tc, kv⟩, s4)

/-- The header banner printed on lines 24-26. -/
def headerLines (h : Header) : List Line :=
  [.header1 h.magic h.version, .header2 h.tensor_count h.kv_count, .metadataKeys]

/-- Models read_gguf_metadata applied to the whole file contents: `none`
models the uncaught struct.error when the file is shorter than the 24-byte
header; otherwise the header and the full printed report. -/
def read_gguf_metadata (buf : Bytes) : Option (Header × List Line) :=
  match parseHeader buf with
  | none => none
  | some (h, s) => some (h, headerLines h ++ runLoop (min h.kv_count 50) 0 s)

/-! ## Byte-building shorthands for whole entries -/

/-- The on-wire bytes of a STRING entry: `key_len`, key bytes, type 8,
`val_len`, value bytes. -/
def strEntry (k v : Bytes) : Bytes :=
  encU64 k.length ++ k ++ encU32 8 ++ encU64 v.length ++ v

/-- The on-wire bytes of an ARRAY entry header: `key_len`, key bytes, type 9,
element type, element count (element payload follows separately). -/
def arrEntry (k : Bytes) (aty alen : Nat) : Bytes :=
  encU64 k.length ++ k ++ encU32 9 ++ encU32 aty ++ encU64 alen

/-- The on-wire bytes of an entry with an arbitrary type code and raw value
payload following separately. -/
def rawEntry (k : Bytes) (ty : Nat) : Bytes :=
  encU64 k.length ++ k ++ encU32 ty

/-- The on-wire bytes of the 24-byte file header. -/
def hdrBytes (m v tc kv : Nat) : Bytes :=
  encU32 m ++ encU32 v ++ encU64 tc ++ encU64 kv

/-- Code points (= ASCII bytes) of the value llama3. -/
def llama3 : Bytes := [108, 108, 97, 109, 97, 51]

/-- An input for the unknown-type-code scenario: header declaring one entry,
then a one-byte key, type code 11 (outside the known table), then two bytes
that would be the next data. -/
def c3buf : Bytes := hdrBytes 1 3 0 1 ++ (rawEntry [107] 11 ++ [9, 9])

/-- A minimal well-formed entry: empty key, type 0 (8-bit), one value byte. -/
def c6entry : Bytes := encU64 0 ++ encU32 0 ++ [0]

/-- A well-formed input declaring kv_count = 100 and actually containing 100
minimal entries after the header. -/
def c6buf : Bytes := hdrBytes 1 3 0 100 ++ (List.replicate 100 c6entry).flatten

/-- The first `n` entry lines the parser prints on `c6buf`. -/
def c6lines : Nat → List Line
  | 0 => []
  | n + 1 => c6lines n ++ [.entry (n + 1) [] 0 false]

/-- Two streams that agree except in the payload bytes of one STRING value
whose key is not the watch key and whose declared length (the same on both
sides) is within the 10000 ceiling; the differing entry may sit after any
run of identical, fully consumed entries. -/
inductive PayloadVariant : Nat → Bytes → Bytes → Prop where
  | here (i : Nat) (k v1 v2 rest : Bytes)
      (hk : k.length ≤ 10000) (hv1 : v1.length ≤ 10000) (hlen : v1.length = v2.length)
      (hsent : decodeLossy k ≠ sentinelStr) (hw : decodeLossy k ≠ watchKey) :
      PayloadVariant i (strEntry k v1 ++ rest) (strEntry k v2 ++ rest)
  | there (i : Nat) (e : Bytes) (ls : List Line) (t1 t2 : Bytes)
      (hstep : ∀ u : Bytes, processEntry i (e ++ u) = .cont ls u)
      (htail : PayloadVariant (i + 1) t1 t2) :
      PayloadVariant i (e ++ t1) (e ++ t2)

/-! ## Basic lemmas about encoding and reading -/

theorem encLE_length (n x : Nat) : (encLE n x).length = n := by
  induction n generalizing x with
  | zero => rfl
  | succ n ih => simp [encLE, ih]

theorem leVal_encLE (n x : Nat) : leVal (encLE n x) = x % 256 ^ n := by
  induction n generalizing x with
  | zero => simp [encLE, leVal, Nat.mod_one]
  | succ n ih =>
    rw [encLE, leVal, ih]
    rw [pow_succ, mul_comm (256 ^ n) 256, Nat.mod_mul]

theorem leVal_encU64 (x : Nat) (hx : x < 2 ^ 64) : leVal (encU64 x) = x := by
  rw [encU64, leVal_encLE]
  exact Nat.mod_eq_of_lt (by norm_num at hx ⊢; exact hx)

theorem leVal_encU32 (x : Nat) (hx : x < 2 ^ 32) : leVal (encU32 x) = x := by
  rw [encU32, leVal_encLE]
  exact Nat.mod_eq_of_lt (by norm_num at hx ⊢; exact hx)

theorem unpackU64_enc (x : Nat) (hx : x < 2 ^ 64) (r : Bytes) :
    unpackU64 (encU64 x ++ r) = some (x, r) := by
  have hlen : (encU64 x).length = 8 := encLE_length 8 x
  rw [unpackU64, if_pos (by simp [hlen])]
  rw [show (8 : Nat) = (encU64 x).length from hlen.symm, List.take_left, List.drop_left,
    leVal_encU64 x hx]

theorem unpackU32_enc (x : Nat) (hx : x < 2 ^ 32) (r : Bytes) :
    unpackU32 (encU32 x ++ r) = some (x, r) := by
  have hlen : (encU32 x).length = 4 := encLE_length 4 x
  rw [unpackU32, if_pos (by simp [hlen])]
  rw [show (4 : Nat) = (encU32 x).length from hlen.symm, List.take_left, List.drop_left,
    leVal_encU32 x hx]

theorem read_string_ok (k t : Bytes) (hk : k.length ≤ 10000) :
    read_string (encU64 k.length ++ (k ++ t)) = some (decodeLossy k, [], t) := by
  rw [read_string, unpackU64_enc k.length (lt_of_le_of_lt hk (by norm_num)) (k ++ t)]
  dsimp only
  rw [if_neg (by omega), List.take_left, List.drop_left]

theorem read_string_over (s : Bytes) (len : Nat) (s1 : Bytes)
    (h : unpackU64 s = some (len, s1)) (hlen : len > 10000) :
    read_string s = some (sentinelStr, [.warnStringLength len], s1) := by
  rw [read_string, h]
  simp [hlen]

/-! ## Characterizing one entry-loop iteration on well-shaped streams -/

theorem processEntry_key_overflow (i : Nat) (s : Bytes) (len : Nat) (s1 : Bytes)
    (h : unpackU64 s = some (len, s1)) (hlen : len > 10000) :
    processEntry i s = .brk [.warnStringLength len, .corruptedKey (i + 1)] s1 := by
  rw [processEntry, read_string_over s len s1 h hlen]
  dsimp only
  rw [if_pos rfl]
  rfl

theorem processEntry_str_nonwatch (i : Nat) (k v t : Bytes) (hk : k.length ≤ 10000)
    (hv : v.length ≤ 10000) (hsent : decodeLossy k ≠ sentinelStr)
    (hw : decodeLossy k ≠ watchKey) :
    processEntry i (strEntry k v ++ t) =
      .cont [.entry (i + 1) (decodeLossy k) 8 false] t := by
  have hshape : strEntry k v ++ t =
      encU64 k.length ++ (k ++ (encU32 8 ++ (encU64 v.length ++ (v ++ t)))) := by
    simp [strEntry]
  rw [hshape, processEntry, read_string_ok _ _ hk]
  dsimp only
  rw [if_neg hsent, unpackU32_enc 8 (by norm_num)]
  dsimp only
  rw [if_pos rfl, unpackU64_enc v.length (lt_of_le_of_lt hv (by norm_num))]
  dsimp only
  rw [if_neg (by omega), List.take_left, List.drop_left]
  simp [hw]

theorem processEntry_str_watch_ok (i : Nat) (k v t : Bytes) (hk : k.length ≤ 10000)
    (hv : v.length ≤ 10000) (hw : decodeLossy k = watchKey) (cs : List Nat)
    (hdec : utf8Decode v = some cs) :
    processEntry i (strEntry k v ++ t) =
      .cont [.entry (i + 1) (decodeLossy k) 8 true, .valueStr cs] t := by
  have hshape : strEntry k v ++ t =
      encU64 k.length ++ (k ++ (encU32 8 ++ (encU64 v.length ++ (v ++ t)))) := by
    simp [strEntry]
  have hsent : decodeLossy k ≠ sentinelStr := by rw [hw]; decide
  rw [hshape, processEntry, read_string_ok _ _ hk]
  dsimp only
  rw [if_neg hsent, unpackU32_enc 8 (by norm_num)]
  dsimp only
  rw [if_pos rfl, unpackU64_enc v.length (lt_of_le_of_lt hv (by norm_num))]
  dsimp only
  rw [if_neg (by omega), List.take_left, List.drop_left, hdec]
  simp [hw]

theorem processEntry_str_watch_hex (i : Nat) (k v t : Bytes) (hk : k.length ≤ 10000)
    (hv : v.length ≤ 10000) (hw : decodeLossy k = watchKey)
    (hdec : utf8Decode v = none) :
    processEntry i (strEntry k v ++ t) =
      .cont [.entry (i + 1) (decodeLossy k) 8 true, .valueHex v] t := by
  have hshape : strEntry k v ++ t =
      encU64 k.length ++ (k ++ (encU32 8 ++ (encU64 v.length ++ (v ++ t)))) := by
    simp [strEntry]
  have hsent : decodeLossy k ≠ sentinelStr := by rw [hw]; decide
  rw [hshape, processEntry, read_string_ok _ _ hk]
  dsimp only
  rw [if_neg hsent, unpackU32_enc 8 (by norm_num)]
  dsimp only
  rw [if_pos rfl, unpackU64_enc v.length (lt_of_le_of_lt hv (by norm_num))]
  dsimp only
  rw [if_neg (by omega), List.take_left, List.drop_left, hdec]
  simp [hw]

theorem processEntry_str_overflow (i : Nat) (k t : Bytes) (vlen : Nat)
    (hk : k.length ≤ 10000) (hsent : decodeLossy k ≠ sentinelStr)
    (hvlen : vlen > 10000) (hv64 : vlen < 2 ^ 64) :
    processEntry i (rawEntry k 8 ++ (encU64 vlen ++ t)) =
      .brk [.entry (i + 1) (decodeLossy k) 8 (decide (decodeLossy k = watchKey)),
            .warnValueLength vlen] t := by
  have hshape : rawEntry k 8 ++ (encU64 vlen ++ t) =
      encU64 k.length ++ (k ++ (encU32 8 ++ (encU64 vlen ++ t))) := by
    simp [rawEntry]
  rw [hshape, processEntry, read_string_ok _ _ hk]
  dsimp only
  rw [if_neg hsent, unpackU32_enc 8 (by norm_num)]
  dsimp only
  rw [if_pos rfl, unpackU64_enc vlen hv64]
  dsimp only
  rw [if_pos hvlen]
  rfl

theorem processEntry_arr (i : Nat) (k t : Bytes) (aty alen : Nat)
    (hk : k.length ≤ 10000) (hsent : decodeLossy k ≠ sentinelStr)
    (haty : aty < 2 ^ 32) (halen : alen < 2 ^ 64) :
    processEntry i (arrEntry k aty alen ++ t) =
      (let found := decide (decodeLossy k = watchKey)
       let ls := Line.entry (i + 1) (decodeLossy k) 9 found ::
         (if found then [Line.arrayInfo aty alen] else [])
       if alen > 100000 then .brk (ls ++ [.warnArrayLength alen]) t
       else if aty = 8 then
         match skipStringArray alen t with
         | .done s5 => .cont ls s5
         | .tooLarge s5 => .abrt (ls ++ [.warnArrayString]) s5
         | .exn s5 => .brk (ls ++ [.errorEntry (i + 1)]) s5
       else
         match type_sizes aty with
         | some w => .cont ls (t.drop (alen * w))
         | none => .cont ls t) := by
  have hshape : arrEntry k aty alen ++ t =
      encU64 k.length ++ (k ++ (encU32 9 ++ (encU32 aty ++ (encU64 alen ++ t)))) := by
    simp [arrEntry]
  rw [hshape, processEntry, read_string_ok _ _ hk]
  dsimp only
  rw [if_neg hsent, unpackU32_enc 9 (by norm_num)]
  dsimp only
  rw [if_neg (by norm_num), if_pos rfl, unpackU32_enc aty haty]
  dsimp only
  rw [unpackU64_enc alen halen]
  dsimp only
  by_cases hbig : alen > 100000
  · rw [if_pos hbig, if_pos hbig]
    by_cases hfd : decodeLossy k = watchKey <;> simp [hfd]
  · rw [if_neg hbig, if_neg hbig]
    by_cases h8 : aty = 8
    · rw [if_pos h8, if_pos h8]
      rcases hskip : skipStringArray alen t <;>
        by_cases hfd : decodeLossy k = watchKey <;> simp [hskip, hfd]
    · rw [if_neg h8, if_neg h8]
      rcases hts : type_sizes aty <;>
        by_cases hfd : decodeLossy k = watchKey <;> simp [hts, hfd]

theorem processEntry_scalar (i : Nat) (k t : Bytes) (ty w : Nat)
    (hk : k.length ≤ 10000) (hsent : decodeLossy k ≠ sentinelStr)
    (hty : ty < 2 ^ 32) (h8 : ty ≠ 8) (h9 : ty ≠ 9) (hw : type_sizes ty = some w) :
    processEntry i (rawEntry k ty ++ t) =
      .cont [.entry (i + 1) (decodeLossy k) ty (decide (decodeLossy k = watchKey))]
        (t.drop w) := by
  have hshape : rawEntry k ty ++ t = encU64 k.length ++ (k ++ (encU32 ty ++ t)) := by
    simp [rawEntry]
  rw [hshape, processEntry, read_string_ok _ _ hk]
  dsimp only
  rw [if_neg hsent, unpackU32_enc ty hty]
  dsimp only
  rw [if_neg h8, if_neg h9, hw]
  simp

theorem processEntry_unknownType (i : Nat) (k t : Bytes) (ty : Nat)
    (hk : k.length ≤ 10000) (hsent : decodeLossy k ≠ sentinelStr)
    (hty : ty < 2 ^ 32) (hnone : type_sizes ty = none) :
    processEntry i (rawEntry k ty ++ t) =
      .cont [.entry (i + 1) (decodeLossy k) ty (decide (decodeLossy k = watchKey))] t := by
  have h8 : ty ≠ 8 := by rintro rfl; simp [type_sizes] at hnone
  have h9 : ty ≠ 9 := by rintro rfl; simp [type_sizes] at hnone
  have hshape : rawEntry k ty ++ t = encU64 k.length ++ (k ++ (encU32 ty ++ t)) := by
    simp [rawEntry]
  rw [hshape, processEntry, read_string_ok _ _ hk]
  dsimp only
  rw [if_neg hsent, unpackU32_enc ty hty]
  dsimp only
  rw [if_neg h8, if_neg h9, hnone]
  simp

/-! ## The loop and the header -/

theorem runLoop_cont (n i : Nat) (s : Bytes) (ls : List Line) (s1 : Bytes)
    (h : processEntry i s = .cont ls s1) :
    runLoop (n + 1) i s = ls ++ runLoop n (i + 1) s1 := by
  rw [runLoop, h]

theorem runLoop_brk (n i : Nat) (s : Bytes) (ls : List Line) (s1 : Bytes)
    (h : processEntry i s = .brk ls s1) : runLoop (n + 1) i s = ls := by
  rw [runLoop, h]

theorem runLoop_abrt (n i : Nat) (s : Bytes) (ls : List Line) (s1 : Bytes)
    (h : processEntry i s = .abrt ls s1) : runLoop (n + 1) i s = ls := by
  rw [runLoop, h]

theorem unpackU32_length (s : Bytes) (x : Nat) (s1 : Bytes)
    (h : unpackU32 s = some (x, s1)) : 4 ≤ s.length ∧ s1.length = s.length - 4 := by
  rw [unpackU32] at h
  split_ifs at h with h4
  · simp only [Option.some.injEq, Prod.mk.injEq] at h
    exact ⟨h4, h.2 ▸ by simp⟩

theorem unpackU64_length (s : Bytes) (x : Nat) (s1 : Bytes)
    (h : unpackU64 s = some (x, s1)) : 8 ≤ s.length ∧ s1.length = s.length - 8 := by
  rw [unpackU64] at h
  split_ifs at h with h8
  · simp only [Option.some.injEq, Prod.mk.injEq] at h
    exact ⟨h8, h.2 ▸ by simp⟩

theorem parseHeader_short (s : Bytes) (h : s.length < 24) : parseHeader s = none := by
  rw [parseHeader]
  rcases h1 : unpackU32 s with _ | ⟨x1, s1⟩
  · rfl
  obtain ⟨hl1, hs1⟩ := unpackU32_length s x1 s1 h1
  rcases h2 : unpackU32 s1 with _ | ⟨x2, s2⟩
  · dsimp only
    rw [h2]
  obtain ⟨hl2, hs2⟩ := unpackU32_length s1 x2 s2 h2
  rcases h3 : unpackU64 s2 with _ | ⟨x3, s3⟩
  · dsimp only
    rw [h2]
    dsimp only
    rw [h3]
  obtain ⟨hl3, hs3⟩ := unpackU64_length s2 x3 s3 h3
  rcases h4 : unpackU64 s3 with _ | ⟨x4, s4⟩
  · dsimp only
    rw [h2]
    dsimp only
    rw [h3]
    dsimp only
    rw [h4]
  obtain ⟨hl4, _⟩ := unpackU64_length s3 x4 s4 h4
  omega

theorem parseHeader_hdrBytes (m v tc kv : Nat) (r : Bytes)
    (hm : m < 2 ^ 32) (hv : v < 2 ^ 32) (htc : tc < 2 ^ 64) (hkv : kv < 2 ^ 64) :
    parseHeader (hdrBytes m v tc kv ++ r) = some (⟨m, v, tc, kv⟩, r) := by
  have hshape : hdrBytes m v tc kv ++ r =
      encU32 m ++ (encU32 v ++ (encU64 tc ++ (encU64 kv ++ r))) := by
    simp [hdrBytes]
  rw [hshape, parseHeader, unpackU32_enc m hm]
  dsimp only
  rw [unpackU32_enc v hv]
  dsimp only
  rw [unpackU64_enc tc htc]
  dsimp only
  rw [unpackU64_enc kv hkv]

/-! ## The claims -/

/-- C1: when a string element inside a STRING array has a declared length
over 10000, the parse is aborted on the spot: the remaining elements of the
array are never examined (first conjunct: the skip loop answers tooLarge no
matter how many elements were still due, leaving the stream right after the
offending length field), the iteration returns `abrt` with only the lines
printed so far (fifth conjunct), and the loop emits nothing further
(second conjunct).  Every other overflow failure only breaks the entry
loop: `brk` also ends the report (third conjunct), while entries already
processed keep their lines via the `cont` unfolding (fourth conjunct). -/
theorem C1_array_string_abort_scope :
    (∀ (m : Nat) (s : Bytes) (len : Nat) (s1 : Bytes),
        unpackU64 s = some (len, s1) → len > 10000 →
        skipStringArray (m + 1) s = .tooLarge s1)
    ∧ (∀ (n i : Nat) (s : Bytes) (ls : List Line) (r : Bytes),
        processEntry i s = .abrt ls r → runLoop (n + 1) i s = ls)
    ∧ (∀ (n i : Nat) (s : Bytes) (ls : List Line) (r : Bytes),
        processEntry i s = .brk ls r → runLoop (n + 1) i s = ls)
    ∧ (∀ (n i : Nat) (s : Bytes) (ls : List Line) (r : Bytes),
        processEntry i s = .cont ls r → runLoop (n + 1) i s = ls ++ runLoop n (i + 1) r)
    ∧ (∀ (i : Nat) (k t : Bytes) (alen len : Nat) (s1 : Bytes),
        k.length ≤ 10000 → decodeLossy k ≠ sentinelStr → alen ≤ 100000 → 1 ≤ alen →
        unpackU64 t = some (len, s1) → len > 10000 →
        processEntry i (arrEntry k 8 alen ++ t) =
          .abrt (Line.entry (i + 1) (decodeLossy k) 9 (decide (decodeLossy k = watchKey)) ::
            ((if decodeLossy k = watchKey then [Line.arrayInfo 8 alen] else []) ++
              [Line.warnArrayString])) s1) := by
  refine ⟨?_, ?_, ?_, ?_, ?_⟩
  · intro m s len s1 h hlen
    simp only [skipStringArray, h]
    rw [if_pos hlen]
  · intro n i s ls r h
    exact runLoop_abrt n i s ls r h
  · intro n i s ls r h
    exact runLoop_brk n i s ls r h
  · intro n i s ls r h
    exact runLoop_cont n i s ls r h
  · intro i k t alen len s1 hk hsent hle h1 hup hlen
    obtain ⟨m, rfl⟩ : ∃ m, alen = m + 1 := ⟨alen - 1, by omega⟩
    have hskip : skipStringArray (m + 1) t = .tooLarge s1 := by
      simp only [skipStringArray, hup]
      rw [if_pos hlen]
    rw [processEntry_arr i k t 8 (m + 1) hk hsent (by norm_num)
      (lt_of_le_of_lt hle (by norm_num))]
    dsimp only
    rw [if_neg (by omega), if_pos rfl, hskip]
    by_cases hfd : decodeLossy k = watchKey <;> simp [hfd]

theorem C1_array_string_abort_scope_witness :
    skipStringArray 3 (encU64 10001 ++ [1, 2]) = .tooLarge [1, 2]
    ∧ runLoop 5 0 (arrEntry [107] 8 1 ++ encU64 10001) =
        [Line.entry 1 [107] 9 false, Line.warnArrayString]
    ∧ runLoop 5 0 (encU64 10001) = [Line.warnStringLength 10001, Line.corruptedKey 1]
    ∧ runLoop 5 0 (rawEntry [107] 0 ++ [5]) =
        [Line.entry 1 [107] 0 false] ++ runLoop 4 1 []
    ∧ processEntry 0 (arrEntry [107] 8 1 ++ encU64 10001) =
        .abrt (Line.entry 1 (decodeLossy [107]) 9 (decide (decodeLossy [107] = watchKey)) ::
          ((if decodeLossy [107] = watchKey then [Line.arrayInfo 8 1] else []) ++
            [Line.warnArrayString])) [] :=
  ⟨C1_array_string_abort_scope.1 2 (encU64 10001 ++ [1, 2]) 10001 [1, 2]
      (by decide) (by decide),
   C1_array_string_abort_scope.2.1 4 0 (arrEntry [107] 8 1 ++ encU64 10001)
      [Line.entry 1 [107] 9 false, Line.warnArrayString] [] (by decide),
   C1_array_string_abort_scope.2.2.1 4 0 (encU64 10001)
      [Line.warnStringLength 10001, Line.corruptedKey 1] [] (by decide),
   C1_array_string_abort_scope.2.2.2.1 4 0 (rawEntry [107] 0 ++ [5])
      [Line.entry 1 [107] 0 false] [] (by decide),
   C1_array_string_abort_scope.2.2.2.2 0 [107] (encU64 10001) 1 10001 []
      (by decide) (by decide) (by decide) (by decide) (by decide) (by decide)⟩

/-- C2 counterexample: the claim says an ARRAY entry whose element type is 9
is skipped as zero bytes (codes 8 and 9 never looked up in the fixed-width
table).  On a concrete input the code consumes 8 bytes per element, taken
from the table entry for code 9: after an ARRAY(elem 9, count 1) entry the
stream continues after the 8 skipped bytes, not at them. -/
theorem C2_element_type9_cex :
    processEntry 0 (arrEntry [107] 9 1 ++ ([7, 7, 7, 7, 7, 7, 7, 7] ++ [42])) =
      .cont [Line.entry 1 [107] 9 false] [42]
    ∧ ([42] : Bytes) ≠ [7, 7, 7, 7, 7, 7, 7, 7] ++ [42]
    ∧ type_sizes 9 = some 8 := by
  refine ⟨by decide, by decide, by decide⟩

/-- C2 amended: the parser always dispatches an entry type code 8 as STRING
and 9 as ARRAY, and an array element type 8 to the string-element loop;
but an array element type 9 IS looked up in the fixed-width table (width 8)
and consumes 8 bytes per element — it is not skipped as zero bytes. -/
theorem C2_dispatch_amended :
    (∀ (i : Nat) (k v t : Bytes), k.length ≤ 10000 → v.length ≤ 10000 →
        decodeLossy k ≠ sentinelStr → decodeLossy k ≠ watchKey →
        processEntry i (strEntry k v ++ t) =
          .cont [.entry (i + 1) (decodeLossy k) 8 false] t)
    ∧ (∀ (i : Nat) (k t r : Bytes) (alen : Nat), k.length ≤ 10000 →
        decodeLossy k ≠ sentinelStr → decodeLossy k ≠ watchKey → alen ≤ 100000 →
        skipStringArray alen t = .done r →
        processEntry i (arrEntry k 8 alen ++ t) =
          .cont [.entry (i + 1) (decodeLossy k) 9 false] r)
    ∧ type_sizes 9 = some 8
    ∧ (∀ (i : Nat) (k t : Bytes) (alen : Nat), k.length ≤ 10000 →
        decodeLossy k ≠ sentinelStr → decodeLossy k ≠ watchKey → alen ≤ 100000 →
        processEntry i (arrEntry k 9 alen ++ t) =
          .cont [.entry (i + 1) (decodeLossy k) 9 false] (t.drop (alen * 8))) := by
  refine ⟨?_, ?_, by decide, ?_⟩
  · intro i k v t hk hv hsent hw
    exact processEntry_str_nonwatch i k v t hk hv hsent hw
  · intro i k t r alen hk hsent hw hle hskip
    rw [processEntry_arr i k t 8 alen hk hsent (by norm_num)
      (lt_of_le_of_lt hle (by norm_num))]
    dsimp only
    rw [if_neg (by omega), if_pos rfl, hskip]
    simp [hw]
  · intro i k t alen hk hsent hw hle
    rw [processEntry_arr i k t 9 alen hk hsent (by norm_num)
      (lt_of_le_of_lt hle (by norm_num))]
    dsimp only
    rw [if_neg (by omega), if_neg (by norm_num)]
    simp [hw, type_sizes]

theorem C2_dispatch_amended_witness :
    processEntry 0 (strEntry [107] [5] ++ [9]) = .cont [Line.entry 1 [107] 8 false] [9]
    ∧ processEntry 0 (arrEntry [107] 8 1 ++ (encU64 1 ++ [65])) =
        .cont [Line.entry 1 [107] 9 false] []
    ∧ processEntry 0 (arrEntry [107] 9 2 ++ [1, 2, 3, 4, 5, 6, 7, 8, 9, 10, 11, 12, 13, 14, 15, 16, 99]) =
        .cont [Line.entry 1 [107] 9 false]
          ([1, 2, 3, 4, 5, 6, 7, 8, 9, 10, 11, 12, 13, 14, 15, 16, 99].drop (2 * 8)) :=
  ⟨by
    have h := C2_dispatch_amended.1 0 [107] [5] [9]
      (by decide) (by decide) (by decide) (by decide)
    rw [h]
    decide,
   by
    have h := C2_dispatch_amended.2.1 0 [107] (encU64 1 ++ [65]) [] 1
      (by decide) (by decide) (by decide) (by decide) (by decide)
    rw [h]
    decide,
   by
    have h := C2_dispatch_amended.2.2.2 0 [107]
      [1, 2, 3, 4, 5, 6, 7, 8, 9, 10, 11, 12, 13, 14, 15, 16, 99] 2
      (by decide) (by decide) (by decide) (by decide)
    rw [h]
    decide⟩

/-- C3 counterexample: the claim says the parser emits a diagnostic note for
an entry whose type code is outside the known table.  On a concrete input
with type code 11 the full report contains only the banner and the standard
entry line — no note of any kind. -/
theorem C3_no_note_cex :
    read_gguf_metadata c3buf =
      some (⟨1, 3, 0, 1⟩,
        [.header1 1 3, .header2 0 1, .metadataKeys, .entry 1 [107] 11 false])
    ∧ notes [Line.header1 1 3, Line.header2 0 1, Line.metadataKeys,
        Line.entry 1 [107] 11 false] = [] := by
  refine ⟨by decide, by decide⟩

/-- C3 amended: for an entry whose type code is outside the known table
(first conjunct), and equally for an ARRAY entry whose element-type code is
outside the known table (second conjunct), the parser skips zero value
bytes and does not fail — the loop continues with the stream exactly where
the type field (resp. the element count field) ended — but it emits NO
diagnostic note: the entry produces only the standard entry line, plus, for
a watched key on the ARRAY case, the array-info detail line, which is
ordinary output and not a note. -/
theorem C3_unknown_type_amended :
    (∀ (n i : Nat) (k t : Bytes) (ty : Nat), k.length ≤ 10000 →
        decodeLossy k ≠ sentinelStr → ty < 2 ^ 32 → type_sizes ty = none →
        processEntry i (rawEntry k ty ++ t) =
          .cont [.entry (i + 1) (decodeLossy k) ty (decide (decodeLossy k = watchKey))] t
        ∧ notes [Line.entry (i + 1) (decodeLossy k) ty
            (decide (decodeLossy k = watchKey))] = []
        ∧ runLoop (n + 1) i (rawEntry k ty ++ t) =
            Line.entry (i + 1) (decodeLossy k) ty (decide (decodeLossy k = watchKey)) ::
              runLoop n (i + 1) t)
    ∧ (∀ (n i : Nat) (k t : Bytes) (aty alen : Nat), k.length ≤ 10000 →
        decodeLossy k ≠ sentinelStr → aty < 2 ^ 32 → type_sizes aty = none →
        alen ≤ 100000 →
        processEntry i (arrEntry k aty alen ++ t) =
          .cont (Line.entry (i + 1) (decodeLossy k) 9 (decide (decodeLossy k = watchKey)) ::
            (if decodeLossy k = watchKey then [Line.arrayInfo aty alen] else [])) t
        ∧ notes (Line.entry (i + 1) (decodeLossy k) 9 (decide (decodeLossy k = watchKey)) ::
            (if decodeLossy k = watchKey then [Line.arrayInfo aty alen] else [])) = []
        ∧ runLoop (n + 1) i (arrEntry k aty alen ++ t) =
            (Line.entry (i + 1) (decodeLossy k) 9 (decide (decodeLossy k = watchKey)) ::
              (if decodeLossy k = watchKey then [Line.arrayInfo aty alen] else [])) ++
              runLoop n (i + 1) t) := by
  constructor
  · intro n i k t ty hk hsent hty hnone
    have hstep := processEntry_unknownType i k t ty hk hsent hty hnone
    refine ⟨hstep, by simp [notes, isNote], ?_⟩
    rw [runLoop_cont n i _ _ _ hstep]
    rfl
  · intro n i k t aty alen hk hsent haty hnone hle
    have h8 : aty ≠ 8 := by rintro rfl; simp [type_sizes] at hnone
    have hstep : processEntry i (arrEntry k aty alen ++ t) =
        .cont (Line.entry (i + 1) (decodeLossy k) 9 (decide (decodeLossy k = watchKey)) ::
          (if decodeLossy k = watchKey then [Line.arrayInfo aty alen] else [])) t := by
      rw [processEntry_arr i k t aty alen hk hsent haty
        (lt_of_le_of_lt hle (by norm_num))]
      dsimp only
      rw [if_neg (by omega), if_neg h8, hnone]
      by_cases hfd : decodeLossy k = watchKey <;> simp [hfd]
    refine ⟨hstep, ?_, runLoop_cont n i _ _ _ hstep⟩
    by_cases hfd : decodeLossy k = watchKey <;> simp [hfd, notes, isNote]

theorem C3_unknown_type_amended_witness :
    (processEntry 0 (rawEntry [107] 11 ++ [9, 9]) =
        .cont [Line.entry 1 (decodeLossy [107]) 11 (decide (decodeLossy [107] = watchKey))] [9, 9]
      ∧ notes [Line.entry 1 (decodeLossy [107]) 11
          (decide (decodeLossy [107] = watchKey))] = []
      ∧ runLoop 3 0 (rawEntry [107] 11 ++ [9, 9]) =
          Line.entry 1 (decodeLossy [107]) 11 (decide (decodeLossy [107] = watchKey)) ::
            runLoop 2 1 [9, 9])
    ∧ (processEntry 0 (arrEntry watchKey 11 3 ++ [9, 9]) =
        .cont (Line.entry 1 (decodeLossy watchKey) 9 (decide (decodeLossy watchKey = watchKey)) ::
          (if decodeLossy watchKey = watchKey then [Line.arrayInfo 11 3] else [])) [9, 9]
      ∧ notes (Line.entry 1 (decodeLossy watchKey) 9 (decide (decodeLossy watchKey = watchKey)) ::
          (if decodeLossy watchKey = watchKey then [Line.arrayInfo 11 3] else [])) = []
      ∧ runLoop 3 0 (arrEntry watchKey 11 3 ++ [9, 9]) =
          (Line.entry 1 (decodeLossy watchKey) 9 (decide (decodeLossy watchKey = watchKey)) ::
            (if decodeLossy watchKey = watchKey then [Line.arrayInfo 11 3] else [])) ++
            runLoop 2 1 [9, 9]) :=
  ⟨C3_unknown_type_amended.1 2 0 [107] [9, 9] 11
      (by decide) (by decide) (by decide) (by decide),
   C3_unknown_type_amended.2 2 0 watchKey [9, 9] 11 3
      (by decide) (by decide) (by decide) (by decide) (by decide)⟩

/-- C4: an entry whose declared key length exceeds 10000 makes read_string
print its warning and return the sentinel, upon which the loop prints the
corrupted-key line and breaks: the stream is left right after the 8-byte
length field (the declared key payload is never read), those two lines are
the whole remaining report (no further entries), and any entry processed
just before keeps its lines in front of them. -/
theorem C4_key_overflow (n i : Nat) (s : Bytes) (len : Nat) (s1 : Bytes)
    (h : unpackU64 s = some (len, s1)) (hlen : len > 10000) :
    processEntry i s = .brk [.warnStringLength len, .corruptedKey (i + 1)] s1
    ∧ s1 = s.drop 8
    ∧ runLoop (n + 1) i s = [.warnStringLength len, .corruptedKey (i + 1)]
    ∧ (∀ (m j : Nat) (p : Bytes) (ls : List Line), processEntry j p = .cont ls s →
        runLoop (m + 2) j p = ls ++ [.warnStringLength len, .corruptedKey (j + 2)]) := by
  have hstep := processEntry_key_overflow i s len s1 h hlen
  have hdrop : s1 = s.drop 8 := by
    rw [unpackU64] at h
    split_ifs at h
    simp only [Option.some.injEq, Prod.mk.injEq] at h
    exact h.2.symm
  refine ⟨hstep, hdrop, runLoop_brk n i s _ s1 hstep, ?_⟩
  intro m j p ls hc
  rw [runLoop_cont (m + 1) j p ls s hc,
    runLoop_brk m (j + 1) s _ s1 (processEntry_key_overflow (j + 1) s len s1 h hlen)]

theorem C4_key_overflow_witness :
    processEntry 0 (encU64 20000 ++ [1, 2, 3]) =
      .brk [Line.warnStringLength 20000, Line.corruptedKey 1] [1, 2, 3]
    ∧ [1, 2, 3] = (encU64 20000 ++ [1, 2, 3] : Bytes).drop 8
    ∧ runLoop 7 0 (encU64 20000 ++ [1, 2, 3]) =
        [Line.warnStringLength 20000, Line.corruptedKey 1]
    ∧ (∀ (m j : Nat) (p : Bytes) (ls : List Line),
        processEntry j p = .cont ls (encU64 20000 ++ [1, 2, 3]) →
        runLoop (m + 2) j p = ls ++ [Line.warnStringLength 20000, Line.corruptedKey (j + 2)]) :=
  C4_key_overflow 6 0 (encU64 20000 ++ [1, 2, 3]) 20000 [1, 2, 3] (by decide) (by decide)

/-- C5: a STRING entry whose declared value length exceeds 10000 prints the
standard entry line then the value-length warning and breaks the loop: the
stream is left right after the 8-byte value length field (the declared
payload is never consumed) and nothing more appears in the report. -/
theorem C5_value_overflow (n i : Nat) (k t : Bytes) (vlen : Nat)
    (hk : k.length ≤ 10000) (hsent : decodeLossy k ≠ sentinelStr)
    (hvlen : vlen > 10000) (hv64 : vlen < 2 ^ 64) :
    processEntry i (rawEntry k 8 ++ (encU64 vlen ++ t)) =
      .brk [.entry (i + 1) (decodeLossy k) 8 (decide (decodeLossy k = watchKey)),
        .warnValueLength vlen] t
    ∧ runLoop (n + 1) i (rawEntry k 8 ++ (encU64 vlen ++ t)) =
        [.entry (i + 1) (decodeLossy k) 8 (decide (decodeLossy k = watchKey)),
          .warnValueLength vlen] := by
  have hstep := processEntry_str_overflow i k t vlen hk hsent hvlen hv64
  exact ⟨hstep, runLoop_brk n i _ _ t hstep⟩

theorem C5_value_overflow_witness :
    processEntry 0 (rawEntry [107] 8 ++ (encU64 10001 ++ [1, 2])) =
      .brk [Line.entry 1 (decodeLossy [107]) 8 (decide (decodeLossy [107] = watchKey)),
        Line.warnValueLength 10001] [1, 2]
    ∧ runLoop 9 0 (rawEntry [107] 8 ++ (encU64 10001 ++ [1, 2])) =
        [Line.entry 1 (decodeLossy [107]) 8 (decide (decodeLossy [107] = watchKey)),
          Line.warnValueLength 10001] :=
  C5_value_overflow 8 0 [107] [1, 2] 10001 (by decide) (by decide) (by decide) (by decide)

set_option maxRecDepth 10000 in
/-- C6: the entry loop runs for exactly min(kv_count, 50) iterations (first
conjunct: the report is the banner plus the loop run with that fuel), and on
a concrete well-formed input declaring kv_count = 100 with 100 entries
present, the report holds exactly 50 entry lines and no warning or error
line of any kind — the run ends cleanly, purely because the cap was hit. -/
theorem C6_entry_cap :
    (∀ (buf : Bytes) (h : Header) (s : Bytes), parseHeader buf = some (h, s) →
        read_gguf_metadata buf = some (h, headerLines h ++ runLoop (min h.kv_count 50) 0 s))
    ∧ read_gguf_metadata c6buf =
        some (⟨1, 3, 0, 100⟩, headerLines ⟨1, 3, 0, 100⟩ ++ c6lines 50)
    ∧ countEntries (c6lines 50) = 50
    ∧ notes (headerLines ⟨1, 3, 0, 100⟩ ++ c6lines 50) = [] := by
  refine ⟨?_, by decide, by decide, by decide⟩
  intro buf h s hp
  rw [read_gguf_metadata, hp]

theorem C6_entry_cap_witness :
    read_gguf_metadata (hdrBytes 2 1 0 0 ++ [7]) =
      some (⟨2, 1, 0, 0⟩, headerLines ⟨2, 1, 0, 0⟩ ++ runLoop (min 0 50) 0 [7]) :=
  C6_entry_cap.1 (hdrBytes 2 1 0 0 ++ [7]) ⟨2, 1, 0, 0⟩ [7] (by decide)

/-- C7: an input shorter than the 24-byte header makes one of the four
fixed-width header reads fail, which is outside any handler and so fatal:
the parse yields no header and no report, and no entry is ever attempted. -/
theorem C7_short_header (buf : Bytes) (h : buf.length < 24) :
    read_gguf_metadata buf = none := by
  rw [read_gguf_metadata, parseHeader_short buf h]

theorem C7_short_header_witness : read_gguf_metadata [0, 1, 2] = none :=
  C7_short_header [0, 1, 2] (by decide)

/-- C8: an entry whose key is the watch key tokenizer.ggml.pre with type
STRING and value llama3 yields the standard entry line carrying the FOUND
marker plus a value line with the decoded text; and when the value bytes of
a watched STRING entry fail strict UTF-8 decoding, the hex representation
is printed instead. -/
theorem C8_watch_found :
    (∀ (i : Nat) (t : Bytes),
        processEntry i (strEntry watchKey llama3 ++ t) =
          .cont [.entry (i + 1) watchKey 8 true, .valueStr llama3] t)
    ∧ (∀ (i : Nat) (v t : Bytes), v.length ≤ 10000 → utf8Decode v = none →
        processEntry i (strEntry watchKey v ++ t) =
          .cont [.entry (i + 1) watchKey 8 true, .valueHex v] t) := by
  have hd : decodeLossy watchKey = watchKey := by decide
  constructor
  · intro i t
    have h := processEntry_str_watch_ok i watchKey llama3 t (by decide) (by decide)
      hd llama3 (by decide)
    rw [h, hd]
  · intro i v t hv hdec
    have h := processEntry_str_watch_hex i watchKey v t (by decide) hv hd hdec
    rw [h, hd]

theorem C8_watch_found_witness :
    processEntry 0 (strEntry watchKey llama3 ++ []) =
      .cont [Line.entry 1 watchKey 8 true, Line.valueStr llama3] []
    ∧ processEntry 0 (strEntry watchKey [255] ++ []) =
        .cont [Line.entry 1 watchKey 8 true, Line.valueHex [255]] [] :=
  ⟨C8_watch_found.1 0 [], C8_watch_found.2 0 [255] [] (by decide) (by decide)⟩

/-- C9: the corruption sentinel is the literal text <CORRUPTED>, so a
well-formed entry whose key declares the in-bounds length 11 and whose key
bytes are exactly the ASCII bytes of <CORRUPTED> is indistinguishable from
a corrupted key: the parser prints the corrupted-key line and terminates
the entry loop, whatever valid data follows. -/
theorem C9_sentinel_collision (n i : Nat) (t : Bytes) :
    processEntry i (encU64 11 ++ (sentinelStr ++ t)) = .brk [.corruptedKey (i + 1)] t
    ∧ runLoop (n + 1) i (encU64 11 ++ (sentinelStr ++ t)) = [.corruptedKey (i + 1)] := by
  have h11 : (11 : Nat) = sentinelStr.length := by decide
  have hstep : processEntry i (encU64 11 ++ (sentinelStr ++ t)) =
      .brk [.corruptedKey (i + 1)] t := by
    rw [h11, processEntry, read_string_ok sentinelStr t (by decide)]
    dsimp only
    rw [if_pos (by decide)]
    rfl
  exact ⟨hstep, runLoop_brk n i _ _ t hstep⟩

/-- C10: noninterference for unwatched STRING payloads.  Two streams that
agree except in the payload bytes of one STRING value (same in-bounds
declared length, key neither the watch key nor the sentinel collision),
possibly after any run of identical fully-consumed entries, produce
identical reports for every remaining iteration budget: the payload is
consumed but never inspected. -/
theorem C10_payload_noninterference (n i : Nat) (s1 s2 : Bytes)
    (h : PayloadVariant i s1 s2) : runLoop n i s1 = runLoop n i s2 := by
  induction h generalizing n with
  | here i k v1 v2 rest hk hv1 hlen hsent hw =>
    cases n with
    | zero => rfl
    | succ m =>
      rw [runLoop_cont m i _ _ _ (processEntry_str_nonwatch i k v1 rest hk hv1 hsent hw),
        runLoop_cont m i _ _ _ (processEntry_str_nonwatch i k v2 rest hk (hlen ▸ hv1) hsent hw)]
  | there i e ls t1 t2 hstep htail ih =>
    cases n with
    | zero => rfl
    | succ m =>
      rw [runLoop_cont m i _ _ _ (hstep t1), runLoop_cont m i _ _ _ (hstep t2), ih m]

theorem C10_payload_noninterference_witness :
    runLoop 1 0 (strEntry [107] [97] ++ []) = runLoop 1 0 (strEntry [107] [98] ++ []) :=
  C10_payload_noninterference 1 0 _ _
    (PayloadVariant.here 0 [107] [97] [98] []
      (by decide) (by decide) (by decide) (by decide) (by decide))

end DebugGguf
